import Mathlib

/-!
Verification of the fused Adam/AdamW CPU kernel
(`aten/src/ATen/native/cpu/FusedAdamKernel.cpp`).

The kernel is embedded shallowly: element storage and compute values are
modelled as exact rationals (`ℚ`).  Up-conversion from a narrow storage
dtype (Half/BFloat16) to the compute dtype (`float`) is exact and is
modelled as the identity; the down-conversion applied at each store point
is modelled by an explicit parameter `rnd : ℚ → ℚ`, and the (per-lane and
scalar) square root by a parameter `sq : ℚ → ℚ`.  SIMD lane counts are a
parameter `W` (the number of `opmath_t` lanes of one compute vector; a
narrow-dtype storage vector holds `2*W` elements).  Since every SIMD lane
of the source performs independent arithmetic, a vector operation is
modelled lane-wise.
-/

namespace FusedAdam

/-- The two Adam variants dispatched by the kernel (`ADAM_MODE`). -/
inductive AdamMode where
  | ORIGINAL
  | ADAMW
deriving DecidableEq

/-- One element slot across the five logically aligned buffers
(`param`, `grad`, `exp_avg`, `exp_avg_sq`, `max_exp_avg_sq`). -/
structure Elem where
  param : ℚ
  grad : ℚ
  exp_avg : ℚ
  exp_avg_sq : ℚ
  max_exp_avg_sq : ℚ
deriving DecidableEq

/-- The scalar arguments of `adam_math`, bundled.  Field names follow the
source parameter names. -/
structure Hyper where
  lr : ℚ
  step_size : ℚ
  bias_correction2 : ℚ
  exp_avg_grad_coefficient : ℚ
  exp_avg_sq_grad_coefficient : ℚ
  bias_correction2_sqrt : ℚ
  eps : ℚ
  weight_decay : ℚ
  beta2 : ℚ
  amsgrad : Bool
  maximize : Bool
  gradScale : Option ℚ
  mode : AdamMode

/-- One lane pair of the wide pass of the Half/BFloat16 specialization of
`adam_math` (source lines 47-107).  `e1` is the element seen by lane `i` of
the first up-converted float vector (`grad_vec1` etc.), `e2` the element
seen by lane `i` of the second (`grad_vec2` etc.).  Loads up-convert
exactly; `rnd` models `vec::convert_from_float` at each store.  Note the
faithful transcription of source line 75, where the second half's
first-moment update reads `grad_vec1`. -/
def narrowWidePair (H : Hyper) (sq rnd : ℚ → ℚ) (e1 e2 : Elem) : Elem × Elem :=
  let grad_vec1 := match H.gradScale with
    | some s => e1.grad / s
    | none => e1.grad
  let grad_vec2 := match H.gradScale with
    | some s => e2.grad / s
    | none => e2.grad
  let grad_store1 := match H.gradScale with
    | some s => rnd (e1.grad / s)
    | none => e1.grad
  let grad_store2 := match H.gradScale with
    | some s => rnd (e2.grad / s)
    | none => e2.grad
  let grad_vec1 := if H.maximize then grad_vec1 * (-1) else grad_vec1
  let grad_vec2 := if H.maximize then grad_vec2 * (-1) else grad_vec2
  let gp1 :=
    if H.weight_decay ≠ 0 then
      match H.mode with
      | AdamMode.ORIGINAL => (grad_vec1 + e1.param * H.weight_decay, e1.param)
      | AdamMode.ADAMW => (grad_vec1, e1.param - H.lr * H.weight_decay * e1.param)
    else (grad_vec1, e1.param)
  let gp2 :=
    if H.weight_decay ≠ 0 then
      match H.mode with
      | AdamMode.ORIGINAL => (grad_vec2 + e2.param * H.weight_decay, e2.param)
      | AdamMode.ADAMW => (grad_vec2, e2.param - H.lr * H.weight_decay * e2.param)
    else (grad_vec2, e2.param)
  let exp_avg_vec1 := e1.exp_avg + H.exp_avg_grad_coefficient * (gp1.1 - e1.exp_avg)
  let exp_avg_vec2 := e2.exp_avg + H.exp_avg_grad_coefficient * (gp1.1 - e2.exp_avg)
  let exp_avg_sq_vec1 := e1.exp_avg_sq * H.beta2 +
    H.exp_avg_sq_grad_coefficient * gp1.1 * gp1.1
  let exp_avg_sq_vec2 := e2.exp_avg_sq * H.beta2 +
    H.exp_avg_sq_grad_coefficient * gp2.1 * gp2.1
  let dx1 :=
    if H.amsgrad then
      let max_exp_avg_sq_vec1 := max e1.max_exp_avg_sq exp_avg_sq_vec1
      (sq max_exp_avg_sq_vec1 / H.bias_correction2_sqrt + H.eps, rnd max_exp_avg_sq_vec1)
    else (sq exp_avg_sq_vec1 / H.bias_correction2_sqrt + H.eps, e1.max_exp_avg_sq)
  let dx2 :=
    if H.amsgrad then
      let max_exp_avg_sq_vec2 := max e2.max_exp_avg_sq exp_avg_sq_vec2
      (sq max_exp_avg_sq_vec2 / H.bias_correction2_sqrt + H.eps, rnd max_exp_avg_sq_vec2)
    else (sq exp_avg_sq_vec2 / H.bias_correction2_sqrt + H.eps, e2.max_exp_avg_sq)
  let param_out1 := rnd (gp1.2 - H.step_size * exp_avg_vec1 / dx1.1)
  let param_out2 := rnd (gp2.2 - H.step_size * exp_avg_vec2 / dx2.1)
  (⟨param_out1, grad_store1, rnd exp_avg_vec1, rnd exp_avg_sq_vec1, dx1.2⟩,
   ⟨param_out2, grad_store2, rnd exp_avg_vec2, rnd exp_avg_sq_vec2, dx2.2⟩)

/-- One iteration of the tail loop of the Half/BFloat16 specialization of
`adam_math` (source lines 108-145).  Loads up-convert exactly; `rnd`
models the `scalar_t(...)` conversion at each store; intermediate values
(`grad_val`, `exp_avg_var`, `exp_avg_sq_var`, `max_exp_avg_sq_var`) stay in
compute precision as in the source. -/
def narrowTailStep (H : Hyper) (sq rnd : ℚ → ℚ) (e : Elem) : Elem :=
  let grad_val := match H.gradScale with
    | some s => e.grad / s
    | none => e.grad
  let grad_store := match H.gradScale with
    | some s => rnd (e.grad / s)
    | none => e.grad
  let grad_val := if H.maximize then -grad_val else grad_val
  let gp :=
    if H.weight_decay ≠ 0 then
      match H.mode with
      | AdamMode.ORIGINAL => (grad_val + e.param * H.weight_decay, e.param)
      | AdamMode.ADAMW => (grad_val, e.param - H.lr * H.weight_decay * e.param)
    else (grad_val, e.param)
  let exp_avg_var := e.exp_avg + H.exp_avg_grad_coefficient * (gp.1 - e.exp_avg)
  let exp_avg_sq_var := e.exp_avg_sq * H.beta2 +
    H.exp_avg_sq_grad_coefficient * gp.1 * gp.1
  let dx :=
    if H.amsgrad then
      let max_exp_avg_sq_var := max e.max_exp_avg_sq exp_avg_sq_var
      (sq max_exp_avg_sq_var / H.bias_correction2_sqrt + H.eps, rnd max_exp_avg_sq_var)
    else (sq exp_avg_sq_var / H.bias_correction2_sqrt + H.eps, e.max_exp_avg_sq)
  ⟨rnd (gp.2 - H.step_size * exp_avg_var / dx.1), grad_store,
   rnd exp_avg_var, rnd exp_avg_sq_var, dx.2⟩

/-- One lane of the wide pass of the float/double specialization of
`adam_math` (source lines 176-214).  Storage and compute dtype coincide,
so no conversion is applied at loads or stores. -/
def floatWideLane (H : Hyper) (sq : ℚ → ℚ) (e : Elem) : Elem :=
  let grad_vec := match H.gradScale with
    | some s => e.grad / s
    | none => e.grad
  let grad_store := match H.gradScale with
    | some s => e.grad / s
    | none => e.grad
  let grad_vec := if H.maximize then grad_vec * (-1) else grad_vec
  let gp :=
    if H.weight_decay ≠ 0 then
      match H.mode with
      | AdamMode.ORIGINAL => (grad_vec + e.param * H.weight_decay, e.param)
      | AdamMode.ADAMW => (grad_vec, e.param - H.lr * H.weight_decay * e.param)
    else (grad_vec, e.param)
  let exp_avg_vec := e.exp_avg + H.exp_avg_grad_coefficient * (gp.1 - e.exp_avg)
  let exp_avg_sq_vec := e.exp_avg_sq * H.beta2 +
    H.exp_avg_sq_grad_coefficient * gp.1 * gp.1
  let dx :=
    if H.amsgrad then
      let max_exp_avg_sq_vec := max e.max_exp_avg_sq exp_avg_sq_vec
      (sq max_exp_avg_sq_vec / H.bias_correction2_sqrt + H.eps, max_exp_avg_sq_vec)
    else (sq exp_avg_sq_vec / H.bias_correction2_sqrt + H.eps, e.max_exp_avg_sq)
  ⟨gp.2 - H.step_size * exp_avg_vec / dx.1, grad_store,
   exp_avg_vec, exp_avg_sq_vec, dx.2⟩

/-- One iteration of the tail loop of the float/double specialization of
`adam_math` (source lines 215-245). -/
def floatTailStep (H : Hyper) (sq : ℚ → ℚ) (e : Elem) : Elem :=
  let grad_val := match H.gradScale with
    | some s => e.grad / s
    | none => e.grad
  let grad_store := match H.gradScale with
    | some s => e.grad / s
    | none => e.grad
  let grad_val := if H.maximize then -grad_val else grad_val
  let gp :=
    if H.weight_decay ≠ 0 then
      match H.mode with
      | AdamMode.ORIGINAL => (grad_val + e.param * H.weight_decay, e.param)
      | AdamMode.ADAMW => (grad_val, e.param - H.lr * H.weight_decay * e.param)
    else (grad_val, e.param)
  let exp_avg_val := e.exp_avg + H.exp_avg_grad_coefficient * (gp.1 - e.exp_avg)
  let exp_avg_sq_val := e.exp_avg_sq * H.beta2 +
    H.exp_avg_sq_grad_coefficient * gp.1 * gp.1
  let dx :=
    if H.amsgrad then
      let max_exp_avg_sq_val := max e.max_exp_avg_sq exp_avg_sq_val
      (sq max_exp_avg_sq_val / H.bias_correction2_sqrt + H.eps, max_exp_avg_sq_val)
    else (sq exp_avg_sq_val / H.bias_correction2_sqrt + H.eps, e.max_exp_avg_sq)
  ⟨gp.2 - H.step_size * exp_avg_val / dx.1, grad_store,
   exp_avg_val, exp_avg_sq_val, dx.2⟩

/-- One `2*W`-element chunk of the narrow wide pass: the first `W` elements
of the chunk are the lanes of the first up-converted float vector, the next
`W` elements the lanes of the second; outputs are packed back in order. -/
def chunkApply (pairF : Elem → Elem → Elem × Elem) (W : ℕ) (c : List Elem) : List Elem :=
  let pr := List.zipWith pairF (c.take W) (c.drop W)
  pr.map Prod.fst ++ pr.map Prod.snd

/-- Iterated wide pass of the narrow `adam_math`: `k` chunk iterations of
`2*W` elements each, then the tail loop over what remains. -/
def narrowKernelGo (pairF : Elem → Elem → Elem × Elem) (tailF : Elem → Elem)
    (W : ℕ) : ℕ → List Elem → List Elem
  | 0, l => l.map tailF
  | k + 1, l => chunkApply pairF W (l.take (2 * W)) ++
      narrowKernelGo pairF tailF W k (l.drop (2 * W))

/-- The Half/BFloat16 `adam_math` over a shard: the wide loop runs
`size / (2*W)` iterations (the source bound `size - size % lpVec::size()`
with `lpVec::size() = 2*W`), the tail loop handles the remainder. -/
def narrowKernel (W : ℕ) (pairF : Elem → Elem → Elem × Elem) (tailF : Elem → Elem)
    (l : List Elem) : List Elem :=
  narrowKernelGo pairF tailF W (l.length / (2 * W)) l

/-- Iterated wide pass of the float/double `adam_math`: `k` vector
iterations of `W` independent lanes each, then the tail loop. -/
def floatKernelGo (laneF tailF : Elem → Elem) (W : ℕ) : ℕ → List Elem → List Elem
  | 0, l => l.map tailF
  | k + 1, l => (l.take W).map laneF ++ floatKernelGo laneF tailF W k (l.drop W)

/-- The float/double `adam_math` over a shard: the wide loop runs
`size / W` iterations (the source bound `size - size % Vec::size()`),
the tail loop handles the remainder. -/
def floatKernel (W : ℕ) (laneF tailF : Elem → Elem) (l : List Elem) : List Elem :=
  floatKernelGo laneF tailF W (l.length / W) l

/-- The shard driver (`at::parallel_for` in `adam_fused_step_impl`,
source lines 283-313): a partition is a list of consecutive shard sizes;
each shard receives base pointers offset by `begin` and length
`end - begin`, i.e. a contiguous slice.  Writes are disjoint per shard, so
the parallel execution is modelled by sequential composition. -/
def runShards (mathF : List Elem → List Elem) : List ℕ → List Elem → List Elem
  | [], l => l
  | n :: P, l => mathF (l.take n) ++ runShards mathF P (l.drop n)

/-- Per-call scalar pre-computation of `adam_fused_step_impl` (source
lines 266-279).  The step count is modelled as a natural number (the
source carries it as a float and uses it only as the exponent of
`std::pow`); `sq` models `std::sqrt`. -/
def precomputeHyper (sq : ℚ → ℚ) (lr beta1 beta2 weight_decay eps : ℚ) (step : ℕ)
    (amsgrad maximize : Bool) (gradScale : Option ℚ) (mode : AdamMode) : Hyper :=
  let bias_correction1 := 1 - beta1 ^ step
  let step_size := lr / bias_correction1
  let bias_correction2 := 1 - beta2 ^ step
  let exp_avg_grad_coefficient := 1 - beta1
  let exp_avg_sq_grad_coefficient := 1 - beta2
  let bias_correction2_sqrt := sq bias_correction2
  ⟨lr, step_size, bias_correction2, exp_avg_grad_coefficient,
   exp_avg_sq_grad_coefficient, bias_correction2_sqrt, eps, weight_decay,
   beta2, amsgrad, maximize, gradScale, mode⟩

/-- `adam_fused_step_impl` for Half/BFloat16 storage: pre-compute the
per-call scalars once, then run every shard of the partition `P` with the
same scalar values. -/
def adam_fused_step_impl_narrow (W : ℕ) (P : List ℕ) (sq rnd : ℚ → ℚ)
    (lr beta1 beta2 weight_decay eps : ℚ) (step : ℕ)
    (amsgrad maximize : Bool) (gradScale : Option ℚ) (mode : AdamMode)
    (l : List Elem) : List Elem :=
  let H := precomputeHyper sq lr beta1 beta2 weight_decay eps step
    amsgrad maximize gradScale mode
  runShards (narrowKernel W (narrowWidePair H sq rnd) (narrowTailStep H sq rnd)) P l

/-- `adam_fused_step_impl` for float/double storage. -/
def adam_fused_step_impl_float (W : ℕ) (P : List ℕ) (sq : ℚ → ℚ)
    (lr beta1 beta2 weight_decay eps : ℚ) (step : ℕ)
    (amsgrad maximize : Bool) (gradScale : Option ℚ) (mode : AdamMode)
    (l : List Elem) : List Elem :=
  let H := precomputeHyper sq lr beta1 beta2 weight_decay eps step
    amsgrad maximize gradScale mode
  runShards (floatKernel W (floatWideLane H sq) (floatTailStep H sq)) P l

/-- A buffer heap: storage identifiers to contents.  Used to model the
entry layer's aliasing behaviour (`grad.contiguous()`). -/
def Heap : Type := ℕ → List ℚ

/-- A tensor handle: a storage identifier plus a contiguity flag. -/
structure TensorQ where
  id : ℕ
  contig : Bool

/-- `Tensor::contiguous()`: returns the same tensor (sharing storage) when
the tensor is already contiguous, otherwise allocates fresh storage holding
a contiguous copy of the contents. -/
def contiguousFn (h : Heap) (t : TensorQ) (fresh : ℕ) : TensorQ × Heap :=
  if t.contig then (t, h) else (⟨fresh, true⟩, Function.update h fresh (h t.id))

/-- Zip the five per-element buffers into one element list. -/
def zipElems : List ℚ → List ℚ → List ℚ → List ℚ → List ℚ → List Elem
  | a :: p', b :: g', c :: m', d :: v', e :: x' =>
      ⟨a, b, c, d, e⟩ :: zipElems p' g' m' v' x'
  | _, _, _, _, _ => []

/-- Result of the entry point: the four plainly-passed output buffers, the
heap after the call (carrying the gradient storage), and the tensor handle
produced by `grad.contiguous()`. -/
structure EntryResult where
  paramOut : List ℚ
  expAvgOut : List ℚ
  expAvgSqOut : List ℚ
  maxExpAvgSqOut : List ℚ
  heapOut : Heap
  gradContiguous : TensorQ

/-- `fused_adam_kernel` (source lines 316-342), for Half/BFloat16 storage.
Line 333 materializes `grad_contiguous = grad.contiguous()`; line 336 then
invokes `adam_fused_step_impl` with `grad` itself, so the math layer reads
the gradient from — and writes the unscaled gradient back to — the
caller-supplied `grad` storage, not the materialized copy. -/
def fused_adam_kernel_narrow (W : ℕ) (P : List ℕ) (sq rnd : ℚ → ℚ)
    (lr beta1 beta2 weight_decay eps : ℚ) (step : ℕ)
    (amsgrad maximize : Bool) (gradScale : Option ℚ) (mode : AdamMode)
    (h : Heap) (param exp_avg exp_avg_sq max_exp_avg_sq : List ℚ)
    (grad : TensorQ) (fresh : ℕ) : EntryResult :=
  let gch := contiguousFn h grad fresh
  let gbuf := gch.2 grad.id
  let out := adam_fused_step_impl_narrow W P sq rnd lr beta1 beta2 weight_decay
    eps step amsgrad maximize gradScale mode
    (zipElems param gbuf exp_avg exp_avg_sq max_exp_avg_sq)
  { paramOut := out.map Elem.param
    expAvgOut := out.map Elem.exp_avg
    expAvgSqOut := out.map Elem.exp_avg_sq
    maxExpAvgSqOut := out.map Elem.max_exp_avg_sq
    heapOut := Function.update gch.2 grad.id (out.map Elem.grad)
    gradContiguous := gch.1 }

/-- Modelled from the spec: the weight-decay branch of the narrow wide pass
statically removed (spec section 8, zero-decay identity: "a kernel variant
in which the weight-decay branch is statically removed").  Identical to
`narrowWidePair` except that the `weight_decay != 0` conditional and both
of its arms are deleted. -/
def narrowWidePairNoDecay (H : Hyper) (sq rnd : ℚ → ℚ) (e1 e2 : Elem) : Elem × Elem :=
  let grad_vec1 := match H.gradScale with
    | some s => e1.grad / s
    | none => e1.grad
  let grad_vec2 := match H.gradScale with
    | some s => e2.grad / s
    | none => e2.grad
  let grad_store1 := match H.gradScale with
    | some s => rnd (e1.grad / s)
    | none => e1.grad
  let grad_store2 := match H.gradScale with
    | some s => rnd (e2.grad / s)
    | none => e2.grad
  let grad_vec1 := if H.maximize then grad_vec1 * (-1) else grad_vec1
  let grad_vec2 := if H.maximize then grad_vec2 * (-1) else grad_vec2
  let gp1 := (grad_vec1, e1.param)
  let gp2 := (grad_vec2, e2.param)
  let exp_avg_vec1 := e1.exp_avg + H.exp_avg_grad_coefficient * (gp1.1 - e1.exp_avg)
  let exp_avg_vec2 := e2.exp_avg + H.exp_avg_grad_coefficient * (gp1.1 - e2.exp_avg)
  let exp_avg_sq_vec1 := e1.exp_avg_sq * H.beta2 +
    H.exp_avg_sq_grad_coefficient * gp1.1 * gp1.1
  let exp_avg_sq_vec2 := e2.exp_avg_sq * H.beta2 +
    H.exp_avg_sq_grad_coefficient * gp2.1 * gp2.1
  let dx1 :=
    if H.amsgrad then
      let max_exp_avg_sq_vec1 := max e1.max_exp_avg_sq exp_avg_sq_vec1
      (sq max_exp_avg_sq_vec1 / H.bias_correction2_sqrt + H.eps, rnd max_exp_avg_sq_vec1)
    else (sq exp_avg_sq_vec1 / H.bias_correction2_sqrt + H.eps, e1.max_exp_avg_sq)
  let dx2 :=
    if H.amsgrad then
      let max_exp_avg_sq_vec2 := max e2.max_exp_avg_sq exp_avg_sq_vec2
      (sq max_exp_avg_sq_vec2 / H.bias_correction2_sqrt + H.eps, rnd max_exp_avg_sq_vec2)
    else (sq exp_avg_sq_vec2 / H.bias_correction2_sqrt + H.eps, e2.max_exp_avg_sq)
  let param_out1 := rnd (gp1.2 - H.step_size * exp_avg_vec1 / dx1.1)
  let param_out2 := rnd (gp2.2 - H.step_size * exp_avg_vec2 / dx2.1)
  (⟨param_out1, grad_store1, rnd exp_avg_vec1, rnd exp_avg_sq_vec1, dx1.2⟩,
   ⟨param_out2, grad_store2, rnd exp_avg_vec2, rnd exp_avg_sq_vec2, dx2.2⟩)

/-- Modelled from the spec: the weight-decay branch of the narrow tail loop
statically removed. -/
def narrowTailStepNoDecay (H : Hyper) (sq rnd : ℚ → ℚ) (e : Elem) : Elem :=
  let grad_val := match H.gradScale with
    | some s => e.grad / s
    | none => e.grad
  let grad_store := match H.gradScale with
    | some s => rnd (e.grad / s)
    | none => e.grad
  let grad_val := if H.maximize then -grad_val else grad_val
  let gp := (grad_val, e.param)
  let exp_avg_var := e.exp_avg + H.exp_avg_grad_coefficient * (gp.1 - e.exp_avg)
  let exp_avg_sq_var := e.exp_avg_sq * H.beta2 +
    H.exp_avg_sq_grad_coefficient * gp.1 * gp.1
  let dx :=
    if H.amsgrad then
      let max_exp_avg_sq_var := max e.max_exp_avg_sq exp_avg_sq_var
      (sq max_exp_avg_sq_var / H.bias_correction2_sqrt + H.eps, rnd max_exp_avg_sq_var)
    else (sq exp_avg_sq_var / H.bias_correction2_sqrt + H.eps, e.max_exp_avg_sq)
  ⟨rnd (gp.2 - H.step_size * exp_avg_var / dx.1), grad_store,
   rnd exp_avg_var, rnd exp_avg_sq_var, dx.2⟩

/-- Modelled from the spec: the weight-decay branch of the float/double
wide pass statically removed. -/
def floatWideLaneNoDecay (H : Hyper) (sq : ℚ → ℚ) (e : Elem) : Elem :=
  let grad_vec := match H.gradScale with
    | some s => e.grad / s
    | none => e.grad
  let grad_store := match H.gradScale with
    | some s => e.grad / s
    | none => e.grad
  let grad_vec := if H.maximize then grad_vec * (-1) else grad_vec
  let gp := (grad_vec, e.param)
  let exp_avg_vec := e.exp_avg + H.exp_avg_grad_coefficient * (gp.1 - e.exp_avg)
  let exp_avg_sq_vec := e.exp_avg_sq * H.beta2 +
    H.exp_avg_sq_grad_coefficient * gp.1 * gp.1
  let dx :=
    if H.amsgrad then
      let max_exp_avg_sq_vec := max e.max_exp_avg_sq exp_avg_sq_vec
      (sq max_exp_avg_sq_vec / H.bias_correction2_sqrt + H.eps, max_exp_avg_sq_vec)
    else (sq exp_avg_sq_vec / H.bias_correction2_sqrt + H.eps, e.max_exp_avg_sq)
  ⟨gp.2 - H.step_size * exp_avg_vec / dx.1, grad_store,
   exp_avg_vec, exp_avg_sq_vec, dx.2⟩

/-- Modelled from the spec: the weight-decay branch of the float/double
tail loop statically removed. -/
def floatTailStepNoDecay (H : Hyper) (sq : ℚ → ℚ) (e : Elem) : Elem :=
  let grad_val := match H.gradScale with
    | some s => e.grad / s
    | none => e.grad
  let grad_store := match H.gradScale with
    | some s => e.grad / s
    | none => e.grad
  let grad_val := if H.maximize then -grad_val else grad_val
  let gp := (grad_val, e.param)
  let exp_avg_val := e.exp_avg + H.exp_avg_grad_coefficient * (gp.1 - e.exp_avg)
  let exp_avg_sq_val := e.exp_avg_sq * H.beta2 +
    H.exp_avg_sq_grad_coefficient * gp.1 * gp.1
  let dx :=
    if H.amsgrad then
      let max_exp_avg_sq_val := max e.max_exp_avg_sq exp_avg_sq_val
      (sq max_exp_avg_sq_val / H.bias_correction2_sqrt + H.eps, max_exp_avg_sq_val)
    else (sq exp_avg_sq_val / H.bias_correction2_sqrt + H.eps, e.max_exp_avg_sq)
  ⟨gp.2 - H.step_size * exp_avg_val / dx.1, grad_store,
   exp_avg_val, exp_avg_sq_val, dx.2⟩

section GenericLemmas

variable {α : Type}

lemma zipWith_fst_map_proj (pairF : Elem → Elem → Elem × Elem) (proj : Elem → α)
    (gf : Elem → α) (h1 : ∀ e1 e2, proj (pairF e1 e2).1 = gf e1) :
    ∀ a b : List Elem, a.length = b.length →
      ((List.zipWith pairF a b).map Prod.fst).map proj = a.map gf := by
  intro a
  induction a with
  | nil => intro b _; simp
  | cons e a ih =>
    intro b hb
    cases b with
    | nil => simp at hb
    | cons f b =>
      simp only [List.zipWith_cons_cons, List.map_cons, h1]
      exact congrArg _ (ih b (by simpa using hb))

lemma zipWith_snd_map_proj (pairF : Elem → Elem → Elem × Elem) (proj : Elem → α)
    (gf : Elem → α) (h2 : ∀ e1 e2, proj (pairF e1 e2).2 = gf e2) :
    ∀ a b : List Elem, a.length = b.length →
      ((List.zipWith pairF a b).map Prod.snd).map proj = b.map gf := by
  intro a
  induction a with
  | nil => intro b hb; simp [(List.length_eq_zero.mp hb.symm)]
  | cons e a ih =>
    intro b hb
    cases b with
    | nil => simp at hb
    | cons f b =>
      simp only [List.zipWith_cons_cons, List.map_cons, h2]
      exact congrArg _ (ih b (by simpa using hb))

lemma chunkApply_map_proj (pairF : Elem → Elem → Elem × Elem) (proj : Elem → α)
    (gf : Elem → α) (h1 : ∀ e1 e2, proj (pairF e1 e2).1 = gf e1)
    (h2 : ∀ e1 e2, proj (pairF e1 e2).2 = gf e2)
    (W : ℕ) (c : List Elem) (hc : c.length = 2 * W) :
    (chunkApply pairF W c).map proj = c.map gf := by
  have ha : (c.take W).length = W := by rw [List.length_take]; omega
  have hb : (c.drop W).length = W := by rw [List.length_drop]; omega
  unfold chunkApply
  rw [List.map_append,
    zipWith_fst_map_proj pairF proj gf h1 _ _ (ha.trans hb.symm),
    zipWith_snd_map_proj pairF proj gf h2 _ _ (ha.trans hb.symm),
    ← List.map_append, List.take_append_drop]

lemma narrowKernelGo_map_proj (pairF : Elem → Elem → Elem × Elem)
    (tailF : Elem → Elem) (proj : Elem → α) (gf : Elem → α)
    (h1 : ∀ e1 e2, proj (pairF e1 e2).1 = gf e1)
    (h2 : ∀ e1 e2, proj (pairF e1 e2).2 = gf e2)
    (ht : ∀ e, proj (tailF e) = gf e) (W : ℕ) :
    ∀ (k : ℕ) (l : List Elem), 2 * W * k ≤ l.length →
      (narrowKernelGo pairF tailF W k l).map proj = l.map gf := by
  intro k
  induction k with
  | zero =>
    intro l _
    simp only [narrowKernelGo, List.map_map]
    exact List.map_congr_left fun e _ => ht e
  | succ k ih =>
    intro l hl
    rw [Nat.mul_succ] at hl
    have h2W : 2 * W ≤ l.length := by omega
    have htk : (l.take (2 * W)).length = 2 * W := by rw [List.length_take]; omega
    have hdr : 2 * W * k ≤ (l.drop (2 * W)).length := by rw [List.length_drop]; omega
    simp only [narrowKernelGo]
    rw [List.map_append, chunkApply_map_proj pairF proj gf h1 h2 W _ htk,
      ih _ hdr, ← List.map_append, List.take_append_drop]

lemma narrowKernel_map_proj (pairF : Elem → Elem → Elem × Elem)
    (tailF : Elem → Elem) (proj : Elem → α) (gf : Elem → α)
    (h1 : ∀ e1 e2, proj (pairF e1 e2).1 = gf e1)
    (h2 : ∀ e1 e2, proj (pairF e1 e2).2 = gf e2)
    (ht : ∀ e, proj (tailF e) = gf e) (W : ℕ) (l : List Elem) :
    (narrowKernel W pairF tailF l).map proj = l.map gf := by
  unfold narrowKernel
  exact narrowKernelGo_map_proj pairF tailF proj gf h1 h2 ht W _ l
    (by rw [Nat.mul_comm]; exact Nat.div_mul_le_self _ _)

lemma floatKernelGo_map_proj (laneF tailF : Elem → Elem) (proj : Elem → α)
    (gf : Elem → α) (hl : ∀ e, proj (laneF e) = gf e)
    (ht : ∀ e, proj (tailF e) = gf e) (W : ℕ) :
    ∀ (k : ℕ) (l : List Elem),
      (floatKernelGo laneF tailF W k l).map proj = l.map gf := by
  intro k
  induction k with
  | zero =>
    intro l
    simp only [floatKernelGo, List.map_map]
    exact List.map_congr_left fun e _ => ht e
  | succ k ih =>
    intro l
    simp only [floatKernelGo]
    rw [List.map_append, List.map_map]
    have h1 : (l.take W).map (proj ∘ laneF) = (l.take W).map gf :=
      List.map_congr_left fun e _ => hl e
    rw [h1, ih, ← List.map_append, List.take_append_drop]

lemma floatKernel_map_proj (laneF tailF : Elem → Elem) (proj : Elem → α)
    (gf : Elem → α) (hl : ∀ e, proj (laneF e) = gf e)
    (ht : ∀ e, proj (tailF e) = gf e) (W : ℕ) (l : List Elem) :
    (floatKernel W laneF tailF l).map proj = l.map gf :=
  floatKernelGo_map_proj laneF tailF proj gf hl ht W _ l

lemma zipWith_fst_forall₂ (R : Elem → Elem → Prop)
    (pairF : Elem → Elem → Elem × Elem)
    (hp1 : ∀ e1 e2, R e1 (pairF e1 e2).1) :
    ∀ a b : List Elem, a.length = b.length →
      List.Forall₂ R a ((List.zipWith pairF a b).map Prod.fst) := by
  intro a
  induction a with
  | nil => intro b _; simp
  | cons e a ih =>
    intro b hb
    cases b with
    | nil => simp at hb
    | cons f b =>
      simp only [List.zipWith_cons_cons, List.map_cons]
      exact List.Forall₂.cons (hp1 e f) (ih b (by simpa using hb))

lemma zipWith_snd_forall₂ (R : Elem → Elem → Prop)
    (pairF : Elem → Elem → Elem × Elem)
    (hp2 : ∀ e1 e2, R e2 (pairF e1 e2).2) :
    ∀ a b : List Elem, a.length = b.length →
      List.Forall₂ R b ((List.zipWith pairF a b).map Prod.snd) := by
  intro a
  induction a with
  | nil =>
    intro b hb
    simp [(List.length_eq_zero.mp hb.symm)]
  | cons e a ih =>
    intro b hb
    cases b with
    | nil => simp at hb
    | cons f b =>
      simp only [List.zipWith_cons_cons, List.map_cons]
      exact List.Forall₂.cons (hp2 e f) (ih b (by simpa using hb))

lemma forall₂_append_both {R : Elem → Elem → Prop} :
    ∀ {a b c d : List Elem}, List.Forall₂ R a b → List.Forall₂ R c d →
      List.Forall₂ R (a ++ c) (b ++ d) := by
  intro a b c d hab hcd
  induction hab with
  | nil => simpa using hcd
  | cons h _ ih => exact List.Forall₂.cons h ih

lemma chunkApply_forall₂ (R : Elem → Elem → Prop)
    (pairF : Elem → Elem → Elem × Elem)
    (hp1 : ∀ e1 e2, R e1 (pairF e1 e2).1)
    (hp2 : ∀ e1 e2, R e2 (pairF e1 e2).2)
    (W : ℕ) (c : List Elem) (hc : c.length = 2 * W) :
    List.Forall₂ R c (chunkApply pairF W c) := by
  have ha : (c.take W).length = W := by rw [List.length_take]; omega
  have hb : (c.drop W).length = W := by rw [List.length_drop]; omega
  have h := forall₂_append_both
    (zipWith_fst_forall₂ R pairF hp1 _ _ (ha.trans hb.symm))
    (zipWith_snd_forall₂ R pairF hp2 _ _ (ha.trans hb.symm))
  rw [List.take_append_drop] at h
  exact h

lemma forall₂_map_self (R : Elem → Elem → Prop) (f : Elem → Elem)
    (hf : ∀ e, R e (f e)) : ∀ l : List Elem, List.Forall₂ R l (l.map f) := by
  intro l
  induction l with
  | nil => simp
  | cons e l ih => exact List.Forall₂.cons (hf e) ih

lemma narrowKernelGo_forall₂ (R : Elem → Elem → Prop)
    (pairF : Elem → Elem → Elem × Elem) (tailF : Elem → Elem)
    (hp1 : ∀ e1 e2, R e1 (pairF e1 e2).1)
    (hp2 : ∀ e1 e2, R e2 (pairF e1 e2).2)
    (ht : ∀ e, R e (tailF e)) (W : ℕ) :
    ∀ (k : ℕ) (l : List Elem), 2 * W * k ≤ l.length →
      List.Forall₂ R l (narrowKernelGo pairF tailF W k l) := by
  intro k
  induction k with
  | zero =>
    intro l _
    exact forall₂_map_self R tailF ht l
  | succ k ih =>
    intro l hl
    rw [Nat.mul_succ] at hl
    have htk : (l.take (2 * W)).length = 2 * W := by rw [List.length_take]; omega
    have hdr : 2 * W * k ≤ (l.drop (2 * W)).length := by rw [List.length_drop]; omega
    simp only [narrowKernelGo]
    have h := forall₂_append_both
      (chunkApply_forall₂ R pairF hp1 hp2 W _ htk) (ih _ hdr)
    rw [List.take_append_drop] at h
    exact h

lemma narrowKernel_forall₂ (R : Elem → Elem → Prop)
    (pairF : Elem → Elem → Elem × Elem) (tailF : Elem → Elem)
    (hp1 : ∀ e1 e2, R e1 (pairF e1 e2).1)
    (hp2 : ∀ e1 e2, R e2 (pairF e1 e2).2)
    (ht : ∀ e, R e (tailF e)) (W : ℕ) (l : List Elem) :
    List.Forall₂ R l (narrowKernel W pairF tailF l) :=
  narrowKernelGo_forall₂ R pairF tailF hp1 hp2 ht W _ l
    (by rw [Nat.mul_comm]; exact Nat.div_mul_le_self _ _)

lemma floatKernelGo_forall₂ (R : Elem → Elem → Prop)
    (laneF tailF : Elem → Elem)
    (hl : ∀ e, R e (laneF e)) (ht : ∀ e, R e (tailF e)) (W : ℕ) :
    ∀ (k : ℕ) (l : List Elem),
      List.Forall₂ R l (floatKernelGo laneF tailF W k l) := by
  intro k
  induction k with
  | zero => intro l; exact forall₂_map_self R tailF ht l
  | succ k ih =>
    intro l
    simp only [floatKernelGo]
    have h := forall₂_append_both (forall₂_map_self R laneF hl (l.take W)) (ih (l.drop W))
    rw [List.take_append_drop] at h
    exact h

lemma floatKernel_forall₂ (R : Elem → Elem → Prop) (laneF tailF : Elem → Elem)
    (hl : ∀ e, R e (laneF e)) (ht : ∀ e, R e (tailF e)) (W : ℕ) (l : List Elem) :
    List.Forall₂ R l (floatKernel W laneF tailF l) :=
  floatKernelGo_forall₂ R laneF tailF hl ht W _ l

lemma zipWith_fst_map_comm (pairF pairF' : Elem → Elem → Elem × Elem)
    (φ : Elem → Elem) (proj : Elem → α)
    (h1 : ∀ e1 e2, proj (pairF' (φ e1) (φ e2)).1 = proj (pairF e1 e2).1) :
    ∀ a b : List Elem,
      ((List.zipWith pairF' (a.map φ) (b.map φ)).map Prod.fst).map proj =
      ((List.zipWith pairF a b).map Prod.fst).map proj := by
  intro a
  induction a with
  | nil => intro b; simp
  | cons e a ih =>
    intro b
    cases b with
    | nil => simp
    | cons f b =>
      simp only [List.map_cons, List.zipWith_cons_cons, h1]
      exact congrArg _ (ih b)

lemma zipWith_snd_map_comm (pairF pairF' : Elem → Elem → Elem × Elem)
    (φ : Elem → Elem) (proj : Elem → α)
    (h2 : ∀ e1 e2, proj (pairF' (φ e1) (φ e2)).2 = proj (pairF e1 e2).2) :
    ∀ a b : List Elem,
      ((List.zipWith pairF' (a.map φ) (b.map φ)).map Prod.snd).map proj =
      ((List.zipWith pairF a b).map Prod.snd).map proj := by
  intro a
  induction a with
  | nil => intro b; simp
  | cons e a ih =>
    intro b
    cases b with
    | nil => simp
    | cons f b =>
      simp only [List.map_cons, List.zipWith_cons_cons, h2]
      exact congrArg _ (ih b)

lemma chunkApply_map_comm (pairF pairF' : Elem → Elem → Elem × Elem)
    (φ : Elem → Elem) (proj : Elem → α)
    (h1 : ∀ e1 e2, proj (pairF' (φ e1) (φ e2)).1 = proj (pairF e1 e2).1)
    (h2 : ∀ e1 e2, proj (pairF' (φ e1) (φ e2)).2 = proj (pairF e1 e2).2)
    (W : ℕ) (c : List Elem) :
    (chunkApply pairF' W (c.map φ)).map proj = (chunkApply pairF W c).map proj := by
  unfold chunkApply
  rw [List.map_append, List.map_append, ← List.map_take, ← List.map_drop,
    zipWith_fst_map_comm pairF pairF' φ proj h1,
    zipWith_snd_map_comm pairF pairF' φ proj h2]

lemma narrowKernelGo_map_comm (pairF pairF' : Elem → Elem → Elem × Elem)
    (tailF tailF' : Elem → Elem) (φ : Elem → Elem) (proj : Elem → α)
    (h1 : ∀ e1 e2, proj (pairF' (φ e1) (φ e2)).1 = proj (pairF e1 e2).1)
    (h2 : ∀ e1 e2, proj (pairF' (φ e1) (φ e2)).2 = proj (pairF e1 e2).2)
    (ht : ∀ e, proj (tailF' (φ e)) = proj (tailF e)) (W : ℕ) :
    ∀ (k : ℕ) (l : List Elem),
      (narrowKernelGo pairF' tailF' W k (l.map φ)).map proj =
      (narrowKernelGo pairF tailF W k l).map proj := by
  intro k
  induction k with
  | zero =>
    intro l
    simp only [narrowKernelGo, List.map_map]
    exact List.map_congr_left fun e _ => ht e
  | succ k ih =>
    intro l
    simp only [narrowKernelGo]
    rw [List.map_append, List.map_append, ← List.map_take, ← List.map_drop,
      chunkApply_map_comm pairF pairF' φ proj h1 h2, ih]

lemma narrowKernel_map_comm (pairF pairF' : Elem → Elem → Elem × Elem)
    (tailF tailF' : Elem → Elem) (φ : Elem → Elem) (proj : Elem → α)
    (h1 : ∀ e1 e2, proj (pairF' (φ e1) (φ e2)).1 = proj (pairF e1 e2).1)
    (h2 : ∀ e1 e2, proj (pairF' (φ e1) (φ e2)).2 = proj (pairF e1 e2).2)
    (ht : ∀ e, proj (tailF' (φ e)) = proj (tailF e)) (W : ℕ) (l : List Elem) :
    (narrowKernel W pairF' tailF' (l.map φ)).map proj =
    (narrowKernel W pairF tailF l).map proj := by
  unfold narrowKernel
  rw [List.length_map]
  exact narrowKernelGo_map_comm pairF pairF' tailF tailF' φ proj h1 h2 ht W _ l

lemma floatKernelGo_map_comm (laneF laneF' tailF tailF' : Elem → Elem)
    (φ : Elem → Elem) (proj : Elem → α)
    (hl : ∀ e, proj (laneF' (φ e)) = proj (laneF e))
    (ht : ∀ e, proj (tailF' (φ e)) = proj (tailF e)) (W : ℕ) :
    ∀ (k : ℕ) (l : List Elem),
      (floatKernelGo laneF' tailF' W k (l.map φ)).map proj =
      (floatKernelGo laneF tailF W k l).map proj := by
  intro k
  induction k with
  | zero =>
    intro l
    simp only [floatKernelGo, List.map_map]
    exact List.map_congr_left fun e _ => ht e
  | succ k ih =>
    intro l
    simp only [floatKernelGo]
    rw [List.map_append, List.map_append, ← List.map_take, ← List.map_drop,
      List.map_map, List.map_map, List.map_map, ih]
    congr 1
    exact List.map_congr_left fun e _ => hl e

lemma floatKernel_map_comm (laneF laneF' tailF tailF' : Elem → Elem)
    (φ : Elem → Elem) (proj : Elem → α)
    (hl : ∀ e, proj (laneF' (φ e)) = proj (laneF e))
    (ht : ∀ e, proj (tailF' (φ e)) = proj (tailF e)) (W : ℕ) (l : List Elem) :
    (floatKernel W laneF' tailF' (l.map φ)).map proj =
    (floatKernel W laneF tailF l).map proj := by
  unfold floatKernel
  rw [List.length_map]
  exact floatKernelGo_map_comm laneF laneF' tailF tailF' φ proj hl ht W _ l

end GenericLemmas

/-- Scalar arguments of a sample call: `lr = 1`, `step_size = 2`,
`bias_correction2 = 1/4`, first-moment coefficient `1 - β₁ = 1/2`,
second-moment coefficient `1 - β₂ = 1/4`, `bias_correction2_sqrt = 1/4`
(under the sample square-root model `id`), `eps = 1`, `weight_decay = 0`,
`β₂ = 3/4`, plain Adam, no AMSGrad, no maximize, no gradient scale. -/
def sampleHyper : Hyper :=
  ⟨1, 2, 1/4, 1/2, 1/4, 1/4, 1, 0, 3/4, false, false, none, AdamMode.ORIGINAL⟩

/-- Sample buffers of 2 elements: `param = exp_avg = exp_avg_sq =
max_exp_avg_sq = 0`, `grad = [0, 1]`.  All values arising in the
first-moment updates of this input are exactly representable in every
storage dtype, so the identity rounding model agrees with the real
conversions on them. -/
def sampleElems : List Elem :=
  [⟨0, 0, 0, 0, 0⟩, ⟨0, 1, 0, 0, 0⟩]

/-- C1: the claim states the narrow wide pass and the narrow tail pass
write identical per-element values.  At the sample input (fVec width
`W = 1`, one full `lpVec` chunk of 2 Half elements, `grad = [0, 1]`,
`exp_avg = [0, 0]`, first-moment coefficient `1/2`), the wide pass writes
`exp_avg[1] = 0` (it reads `grad_vec1`, the FIRST half's gradient, in the
second half's first-moment update — source line 75), while the tail pass
writes `exp_avg[1] = 1/2`.  The per-element results of the two passes
therefore disagree at index 1. -/
theorem narrow_wide_tail_disagree :
    (chunkApply (narrowWidePair sampleHyper id id) 1 sampleElems).map Elem.exp_avg
        = [0, 0]
      ∧ (sampleElems.map (narrowTailStep sampleHyper id id)).map Elem.exp_avg
        = [0, 1/2] := by
  constructor
  · norm_num [chunkApply, narrowWidePair, sampleHyper, sampleElems]
  · norm_num [narrowTailStep, sampleHyper, sampleElems]

/-- C3: the claim states shard invariance.  Running the narrow
`adam_fused_step_impl` on the sample input with the single-shard partition
`[2]` routes both elements through the (buggy) wide pass, while the
partition `[1, 1]` leaves each 1-element shard below the 2-element vector
width, routing everything through the tail pass; the two runs disagree:
`exp_avg[1]` is `0` in the first run and `1/2` in the second. -/
theorem shard_partition_dependent :
    (adam_fused_step_impl_narrow 1 [2] id id 1 (1/2) (3/4) 0 1 1
        false false none AdamMode.ORIGINAL sampleElems).map Elem.exp_avg = [0, 0]
      ∧ (adam_fused_step_impl_narrow 1 [1, 1] id id 1 (1/2) (3/4) 0 1 1
        false false none AdamMode.ORIGINAL sampleElems).map Elem.exp_avg = [0, 1/2]
      ∧ adam_fused_step_impl_narrow 1 [2] id id 1 (1/2) (3/4) 0 1 1
          false false none AdamMode.ORIGINAL sampleElems
        ≠ adam_fused_step_impl_narrow 1 [1, 1] id id 1 (1/2) (3/4) 0 1 1
          false false none AdamMode.ORIGINAL sampleElems := by
  have h1 : (adam_fused_step_impl_narrow 1 [2] id id 1 (1/2) (3/4) 0 1 1
      false false none AdamMode.ORIGINAL sampleElems).map Elem.exp_avg = [0, 0] := by
    norm_num [adam_fused_step_impl_narrow, precomputeHyper, runShards, narrowKernel,
      narrowKernelGo, chunkApply, narrowWidePair, narrowTailStep, sampleElems]
  have h2 : (adam_fused_step_impl_narrow 1 [1, 1] id id 1 (1/2) (3/4) 0 1 1
      false false none AdamMode.ORIGINAL sampleElems).map Elem.exp_avg = [0, 1/2] := by
    norm_num [adam_fused_step_impl_narrow, precomputeHyper, runShards, narrowKernel,
      narrowKernelGo, chunkApply, narrowWidePair, narrowTailStep, sampleElems]
  refine ⟨h1, h2, fun h => ?_⟩
  rw [h, h2] at h1
  norm_num at h1

/-- Sample heap for the entry-layer run: storage id `0` holds the
single-element gradient buffer `[2]`; every other id is empty. -/
def sampleHeap : Heap := Function.update (fun _ => ([] : List ℚ)) 0 [2]

/-- The entry point run on a NON-contiguous gradient tensor (storage id
`0`, `contig = false`) with `grad_scale = 2`, fresh storage id `1` for the
materialized copy. -/
def sampleEntry : EntryResult :=
  fused_adam_kernel_narrow 1 [1] id id 1 (1/2) (3/4) 0 1 1
    false false (some 2) AdamMode.ORIGINAL sampleHeap [0] [0] [0] [0] ⟨0, false⟩ 1

/-- C2: the claim states that for a non-contiguous caller gradient the
materialized contiguous copy is the buffer actually read and written by
the math layer.  In the source, line 333 materializes `grad_contiguous`
but line 336 passes `grad` itself to `adam_fused_step_impl`.  At the
sample input the copy lives at storage id `1` (distinct from the caller's
id `0`), yet after the call the caller's storage holds the unscaled
gradient `[1]` (so the math layer read and wrote the caller's buffer)
while the copy still holds the pre-call contents `[2]` (it was never read
or written by the math layer). -/
theorem entry_ignores_contiguous_copy :
    sampleEntry.gradContiguous.id = 1
      ∧ sampleEntry.gradContiguous.id ≠ (0 : ℕ)
      ∧ sampleEntry.heapOut 0 = [1]
      ∧ sampleEntry.heapOut 1 = [2] := by
  norm_num [sampleEntry, sampleHeap, fused_adam_kernel_narrow, contiguousFn,
    zipElems, adam_fused_step_impl_narrow, precomputeHyper, runShards,
    narrowKernel, narrowKernelGo, chunkApply, narrowWidePair, narrowTailStep,
    Function.update]

/-- C4: unscale write-back.  For both storage families, whenever
`grad_scale_ptr` is non-null, the gradient buffer after `adam_math` holds,
at every index, the input gradient divided by the scale, converted to
storage dtype — for any values of all other scalars and flags, in
particular independently of `maximize` (source stores the quotient before
the sign flip: lines 52-57/112-116 narrow, 179-183/218-222 float). -/
theorem unscale_writeback (W : ℕ) (H : Hyper) (sq rnd : ℚ → ℚ) (s : ℚ)
    (l : List Elem) :
    (narrowKernel W (narrowWidePair {H with gradScale := some s} sq rnd)
        (narrowTailStep {H with gradScale := some s} sq rnd) l).map Elem.grad
      = l.map (fun e => rnd (e.grad / s))
    ∧ (floatKernel W (floatWideLane {H with gradScale := some s} sq)
        (floatTailStep {H with gradScale := some s} sq) l).map Elem.grad
      = l.map (fun e => e.grad / s) := by
  constructor
  · exact narrowKernel_map_proj (narrowWidePair {H with gradScale := some s} sq rnd)
      (narrowTailStep {H with gradScale := some s} sq rnd) Elem.grad
      (fun e => rnd (e.grad / s)) (fun e1 e2 => rfl) (fun e1 e2 => rfl)
      (fun e => rfl) W l
  · exact floatKernel_map_proj (floatWideLane {H with gradScale := some s} sq)
      (floatTailStep {H with gradScale := some s} sq) Elem.grad
      (fun e => e.grad / s) (fun e => rfl) (fun e => rfl) W l

/-- C9: frame condition on `grad`.  For both storage families, when
`grad_scale_ptr` is null the gradient buffer is unchanged by `adam_math`
(position-wise), and when it is non-null every position is (re)written
with the unscaled value — so the gradient is written exactly in the
non-null case. -/
theorem grad_frame_condition (W : ℕ) (H : Hyper) (sq rnd : ℚ → ℚ)
    (l : List Elem) :
    ((narrowKernel W (narrowWidePair {H with gradScale := none} sq rnd)
        (narrowTailStep {H with gradScale := none} sq rnd) l).map Elem.grad
      = l.map Elem.grad)
    ∧ ((floatKernel W (floatWideLane {H with gradScale := none} sq)
        (floatTailStep {H with gradScale := none} sq) l).map Elem.grad
      = l.map Elem.grad)
    ∧ ∀ s : ℚ,
      ((narrowKernel W (narrowWidePair {H with gradScale := some s} sq rnd)
          (narrowTailStep {H with gradScale := some s} sq rnd) l).map Elem.grad
        = l.map (fun e => rnd (e.grad / s)))
      ∧ ((floatKernel W (floatWideLane {H with gradScale := some s} sq)
          (floatTailStep {H with gradScale := some s} sq) l).map Elem.grad
        = l.map (fun e => e.grad / s)) := by
  refine ⟨?_, ?_, ?_⟩
  · exact narrowKernel_map_proj (narrowWidePair {H with gradScale := none} sq rnd)
      (narrowTailStep {H with gradScale := none} sq rnd) Elem.grad Elem.grad
      (fun e1 e2 => rfl) (fun e1 e2 => rfl) (fun e => rfl) W l
  · exact floatKernel_map_proj (floatWideLane {H with gradScale := none} sq)
      (floatTailStep {H with gradScale := none} sq) Elem.grad Elem.grad
      (fun e => rfl) (fun e => rfl) W l
  · intro s
    constructor
    · exact narrowKernel_map_proj (narrowWidePair {H with gradScale := some s} sq rnd)
        (narrowTailStep {H with gradScale := some s} sq rnd) Elem.grad
        (fun e => rnd (e.grad / s)) (fun e1 e2 => rfl) (fun e1 e2 => rfl)
        (fun e => rfl) W l
    · exact floatKernel_map_proj (floatWideLane {H with gradScale := some s} sq)
        (floatTailStep {H with gradScale := some s} sq) Elem.grad
        (fun e => e.grad / s) (fun e => rfl) (fun e => rfl) W l

lemma narrowKernel_nil (W : ℕ) (pairF : Elem → Elem → Elem × Elem)
    (tailF : Elem → Elem) : narrowKernel W pairF tailF [] = [] := by
  simp [narrowKernel, narrowKernelGo, Nat.zero_div]

lemma floatKernel_nil (W : ℕ) (laneF tailF : Elem → Elem) :
    floatKernel W laneF tailF [] = [] := by
  simp [floatKernel, floatKernelGo, Nat.zero_div]

lemma runShards_nil_input (f : List Elem → List Elem) (hf : f [] = []) :
    ∀ P : List ℕ, runShards f P [] = [] := by
  intro P
  induction P with
  | nil => rfl
  | cons n P ih => simp [runShards, hf, ih]

/-- C10: an empty element range is a complete no-op.  For every lane
width, partition, square-root and rounding model, all scalars, flags,
scale and mode, both `adam_fused_step_impl` specializations map the empty
buffer family to itself: no wide-pass chunk and no tail iteration runs. -/
theorem empty_range_noop (W : ℕ) (P : List ℕ) (sq rnd : ℚ → ℚ)
    (lr beta1 beta2 weight_decay eps : ℚ) (step : ℕ) (amsgrad maximize : Bool)
    (gradScale : Option ℚ) (mode : AdamMode) :
    adam_fused_step_impl_narrow W P sq rnd lr beta1 beta2 weight_decay eps step
        amsgrad maximize gradScale mode [] = []
    ∧ adam_fused_step_impl_float W P sq lr beta1 beta2 weight_decay eps step
        amsgrad maximize gradScale mode [] = [] := by
  constructor
  · exact runShards_nil_input _ (narrowKernel_nil W _ _) P
  · exact runShards_nil_input _ (floatKernel_nil W _ _) P

/-- C5: AMSGrad monotonicity.  With `amsgrad = true`, position-wise: the
post-call `max_exp_avg_sq` value is at least the pre-call one and at least
the post-call `exp_avg_sq` value.  For the narrow path this holds for any
monotone store-conversion `rnd`, at every position whose pre-call
`max_exp_avg_sq` entry is a fixed point of `rnd` (every value actually
representable in the storage dtype is); the float path needs no such
side conditions. -/
theorem amsgrad_monotonicity (W : ℕ) (H : Hyper) (sq rnd : ℚ → ℚ)
    (l : List Elem) (hmono : Monotone rnd) :
    List.Forall₂ (fun a b => rnd a.max_exp_avg_sq = a.max_exp_avg_sq →
        a.max_exp_avg_sq ≤ b.max_exp_avg_sq ∧ b.exp_avg_sq ≤ b.max_exp_avg_sq)
      l (narrowKernel W (narrowWidePair {H with amsgrad := true} sq rnd)
        (narrowTailStep {H with amsgrad := true} sq rnd) l)
    ∧ List.Forall₂ (fun a b =>
        a.max_exp_avg_sq ≤ b.max_exp_avg_sq ∧ b.exp_avg_sq ≤ b.max_exp_avg_sq)
      l (floatKernel W (floatWideLane {H with amsgrad := true} sq)
        (floatTailStep {H with amsgrad := true} sq) l) := by
  obtain ⟨lr, ss, bc2, mc, vc, bcs, ep, wd, b2, ams, mx, gs, md⟩ := H
  constructor
  · apply narrowKernel_forall₂
    · intro e1 e2
      intro hx
      simp only [narrowWidePair]
      constructor
      · calc e1.max_exp_avg_sq = rnd e1.max_exp_avg_sq := hx.symm
          _ ≤ _ := hmono (le_max_left _ _)
      · exact hmono (le_max_right _ _)
    · intro e1 e2
      intro hx
      simp only [narrowWidePair]
      constructor
      · calc e2.max_exp_avg_sq = rnd e2.max_exp_avg_sq := hx.symm
          _ ≤ _ := hmono (le_max_left _ _)
      · exact hmono (le_max_right _ _)
    · intro e
      intro hx
      simp only [narrowTailStep]
      constructor
      · calc e.max_exp_avg_sq = rnd e.max_exp_avg_sq := hx.symm
          _ ≤ _ := hmono (le_max_left _ _)
      · exact hmono (le_max_right _ _)
  · apply floatKernel_forall₂
    · intro e
      simp only [floatWideLane]
      exact ⟨le_max_left _ _, le_max_right _ _⟩
    · intro e
      simp only [floatTailStep]
      exact ⟨le_max_left _ _, le_max_right _ _⟩

/-- Witness for C5: the monotonicity theorem applied at the sample input
with the identity rounding model. -/
theorem amsgrad_monotonicity_witness :
    List.Forall₂ (fun a b => id a.max_exp_avg_sq = a.max_exp_avg_sq →
        a.max_exp_avg_sq ≤ b.max_exp_avg_sq ∧ b.exp_avg_sq ≤ b.max_exp_avg_sq)
      sampleElems
      (narrowKernel 1 (narrowWidePair {sampleHyper with amsgrad := true} id id)
        (narrowTailStep {sampleHyper with amsgrad := true} id id) sampleElems)
    ∧ List.Forall₂ (fun a b =>
        a.max_exp_avg_sq ≤ b.max_exp_avg_sq ∧ b.exp_avg_sq ≤ b.max_exp_avg_sq)
      sampleElems
      (floatKernel 1 (floatWideLane {sampleHyper with amsgrad := true} id)
        (floatTailStep {sampleHyper with amsgrad := true} id) sampleElems) :=
  amsgrad_monotonicity 1 sampleHyper id id sampleElems (fun _ _ h => h)

/-- C6: zero-decay identity.  Calling `adam_math` with `weight_decay = 0`
produces outputs equal, buffer for buffer and element for element, to the
kernel variants in which the weight-decay branch is statically removed —
for both storage families, every mode, and all remaining scalars and
flags: the source guards the branch with `weight_decay != 0.f`, so no
decay arithmetic is performed at zero. -/
theorem zero_decay_identity (W : ℕ) (H : Hyper) (sq rnd : ℚ → ℚ)
    (l : List Elem) :
    narrowKernel W (narrowWidePair {H with weight_decay := 0} sq rnd)
        (narrowTailStep {H with weight_decay := 0} sq rnd) l
      = narrowKernel W (narrowWidePairNoDecay H sq rnd)
        (narrowTailStepNoDecay H sq rnd) l
    ∧ floatKernel W (floatWideLane {H with weight_decay := 0} sq)
        (floatTailStep {H with weight_decay := 0} sq) l
      = floatKernel W (floatWideLaneNoDecay H sq)
        (floatTailStepNoDecay H sq) l := by
  obtain ⟨lr, ss, bc2, mc, vc, bcs, ep, wd, b2, ams, mx, gs, md⟩ := H
  have hpair : narrowWidePair ⟨lr, ss, bc2, mc, vc, bcs, ep, 0, b2, ams, mx, gs, md⟩ sq rnd
      = narrowWidePairNoDecay ⟨lr, ss, bc2, mc, vc, bcs, ep, wd, b2, ams, mx, gs, md⟩ sq rnd := by
    funext e1 e2
    simp [narrowWidePair, narrowWidePairNoDecay]
  have htail : narrowTailStep ⟨lr, ss, bc2, mc, vc, bcs, ep, 0, b2, ams, mx, gs, md⟩ sq rnd
      = narrowTailStepNoDecay ⟨lr, ss, bc2, mc, vc, bcs, ep, wd, b2, ams, mx, gs, md⟩ sq rnd := by
    funext e
    simp [narrowTailStep, narrowTailStepNoDecay]
  have hlane : floatWideLane ⟨lr, ss, bc2, mc, vc, bcs, ep, 0, b2, ams, mx, gs, md⟩ sq
      = floatWideLaneNoDecay ⟨lr, ss, bc2, mc, vc, bcs, ep, wd, b2, ams, mx, gs, md⟩ sq := by
    funext e
    simp [floatWideLane, floatWideLaneNoDecay]
  have hftail : floatTailStep ⟨lr, ss, bc2, mc, vc, bcs, ep, 0, b2, ams, mx, gs, md⟩ sq
      = floatTailStepNoDecay ⟨lr, ss, bc2, mc, vc, bcs, ep, wd, b2, ams, mx, gs, md⟩ sq := by
    funext e
    simp [floatTailStep, floatTailStepNoDecay]
  rw [hpair, htail, hlane, hftail]
  exact ⟨rfl, rfl⟩

/-- Element-wise negation of the gradient buffer (the other four buffers
unchanged). -/
def negGrad (e : Elem) : Elem :=
  ⟨e.param, -e.grad, e.exp_avg, e.exp_avg_sq, e.max_exp_avg_sq⟩

/-- The four buffers the maximize-symmetry property compares: everything
except the gradient buffer. -/
def momentView (e : Elem) : ℚ × ℚ × ℚ × ℚ :=
  (e.param, e.exp_avg, e.exp_avg_sq, e.max_exp_avg_sq)

/-- C7: maximize symmetry.  With `grad_scale_ptr` null, running
`adam_math` with `maximize = false` on the element-wise negated gradient
buffer produces exactly the same `param`, `exp_avg`, `exp_avg_sq` and
`max_exp_avg_sq` outputs as running with `maximize = true` on the original
gradients — in particular the first-moment updates agree (so they agree up
to sign), for both storage families.  The effective gradient entering the
moment updates is `-g` in both runs. -/
theorem maximize_symmetry (W : ℕ) (H : Hyper) (sq rnd : ℚ → ℚ)
    (l : List Elem) :
    (narrowKernel W
        (narrowWidePair {H with maximize := false, gradScale := none} sq rnd)
        (narrowTailStep {H with maximize := false, gradScale := none} sq rnd)
        (l.map negGrad)).map momentView
      = (narrowKernel W
        (narrowWidePair {H with maximize := true, gradScale := none} sq rnd)
        (narrowTailStep {H with maximize := true, gradScale := none} sq rnd)
        l).map momentView
    ∧ (floatKernel W
        (floatWideLane {H with maximize := false, gradScale := none} sq)
        (floatTailStep {H with maximize := false, gradScale := none} sq)
        (l.map negGrad)).map momentView
      = (floatKernel W
        (floatWideLane {H with maximize := true, gradScale := none} sq)
        (floatTailStep {H with maximize := true, gradScale := none} sq)
        l).map momentView := by
  obtain ⟨lr, ss, bc2, mc, vc, bcs, ep, wd, b2, ams, mx, gs, md⟩ := H
  constructor
  · apply narrowKernel_map_comm
    · intro e1 e2
      simp [narrowWidePair, negGrad, momentView, mul_neg_one]
    · intro e1 e2
      simp [narrowWidePair, negGrad, momentView, mul_neg_one]
    · intro e
      simp [narrowTailStep, negGrad, momentView, mul_neg_one]
  · apply floatKernel_map_comm
    · intro e
      simp [floatWideLane, negGrad, momentView, mul_neg_one]
    · intro e
      simp [floatTailStep, negGrad, momentView, mul_neg_one]

end FusedAdam
